import Mathlib

/-!
Verification of the wheeled-mobile-manipulator (WMM) visualization
component (`src/app/components/wmm.tsx`).

The component is shallowly embedded over `ℝ`:
* JS `Math.atan2 y x` is the complex argument of `x + y·i`;
* JS operations that produce `NaN` (division by zero, `Math.acos` of an
  argument outside `[-1, 1]`) are modelled with `Option ℝ`, where `none`
  stands for a NaN/undefined result;
* drawing calls are modelled by pure functions returning the geometry
  (points, segments, circle centres) the source would paint.
-/

noncomputable section

open Real

/-- JS `Math.atan2 y x`, modelled as the argument of the complex number
`x + y·i` (range `(-π, π]`, `atan2 0 0 = 0`, quadrant-correct). -/
def atan2 (y x : ℝ) : ℝ := Complex.arg ⟨x, y⟩

/-- JS `Math.acos`: defined on `[-1, 1]`; outside that interval the JS
function returns NaN, modelled here as `none`. -/
def acosJs (t : ℝ) : Option ℝ :=
  if -1 ≤ t ∧ t ≤ 1 then some (Real.arccos t) else none

/-- JS division whose NaN/Infinity results (zero denominator) are modelled
as `none`; `Math.acos` of such a result is NaN either way. -/
def divJs (a b : ℝ) : Option ℝ :=
  if b = 0 then none else some (a / b)

/-- `r = Math.sqrt (x*x + y*y)` in `calculateInverseKinematics`. -/
def ik_r (x y : ℝ) : ℝ := Real.sqrt (x * x + y * y)

/-- `a = r - l3` in `calculateInverseKinematics`. -/
def ik_a (x y l3 : ℝ) : ℝ := ik_r x y - l3

/-- `b = Math.sqrt (a*a + l2*l2)` in `calculateInverseKinematics`. -/
def ik_b (x y l2 l3 : ℝ) : ℝ :=
  Real.sqrt (ik_a x y l3 * ik_a x y l3 + l2 * l2)

/-- `c = Math.sqrt (l1*l1 + b*b)` in `calculateInverseKinematics`. -/
def ik_c (x y l1 l2 l3 : ℝ) : ℝ :=
  Real.sqrt (l1 * l1 + ik_b x y l2 l3 * ik_b x y l2 l3)

/-- Shallow embedding of `calculateInverseKinematics` (wmm.tsx lines 6–22).
The `armLengths` array is passed as the three components `l1 l2 l3`.
`theta2`/`theta3` are `Option ℝ` because the source's `Math.acos` calls can
produce NaN (modelled `none`); `theta1` is always a plain number. -/
def calculateInverseKinematics (x y l1 l2 l3 : ℝ) : ℝ × Option ℝ × Option ℝ :=
  let theta1 := atan2 y x
  let b := ik_b x y l2 l3
  let c := ik_c x y l1 l2 l3
  let theta3 := (divJs (l1 * l1 + b * b - c * c) (2 * l1 * b)).bind acosJs
  let alpha := atan2 (ik_a x y l3) l2
  let beta := (divJs (l1 * l1 + c * c - b * b) (2 * l1 * c)).bind acosJs
  let theta2 := beta.map (fun be => alpha + be)
  (theta1, theta2, theta3)

/-- The spec's IK algorithm (§4.1 steps 1–4), written with the total
`Real.arccos`; compared with `calculateInverseKinematics` on the domain
where the source's `acos` calls are in range. -/
def specInverseKinematics (x y l1 l2 l3 : ℝ) : ℝ × ℝ × ℝ :=
  let theta1 := atan2 y x
  let r := Real.sqrt (x * x + y * y)
  let a := r - l3
  let b := Real.sqrt (a * a + l2 * l2)
  let c := Real.sqrt (l1 * l1 + b * b)
  let theta3 := Real.arccos ((l1 * l1 + b * b - c * c) / (2 * l1 * b))
  let alpha := atan2 a l2
  let beta := Real.arccos ((l1 * l1 + c * c - b * b) / (2 * l1 * c))
  (theta1, alpha + beta, theta3)

/-- The points computed by `drawArm` (wmm.tsx lines 161–213): the shoulder
anchor (`armLink1Start`) and the three successive link endpoints; the
gripper centre is the point `drawArm` hands to `drawGripper`. -/
structure ArmPoints where
  armLink1Start : ℝ × ℝ
  armLink1End : ℝ × ℝ
  armLink2End : ℝ × ℝ
  armLink3End : ℝ × ℝ
  gripperCenter : ℝ × ℝ

/-- Shallow embedding of `drawArm` (wmm.tsx lines 161–213); the
`armLengths`/`armThetas` arrays are passed componentwise. -/
def drawArm (baseX baseY l1 l2 l3 t1 t2 t3 baseWidth : ℝ) : ArmPoints :=
  let armLink1StartX := baseX + baseWidth / 1.25
  let armLink1StartY := baseY
  let armLink1EndX := armLink1StartX + l1 * Real.cos t1
  let armLink1EndY := armLink1StartY - l1 * Real.sin t1
  let armLink2EndX := armLink1EndX + l2 * Real.cos t2
  let armLink2EndY := armLink1EndY - l2 * Real.sin t2
  let armLink3EndX := armLink2EndX + l3 * Real.cos t3
  let armLink3EndY := armLink2EndY - l3 * Real.sin t3
  { armLink1Start := (armLink1StartX, armLink1StartY)
    armLink1End := (armLink1EndX, armLink1EndY)
    armLink2End := (armLink2EndX, armLink2EndY)
    armLink3End := (armLink3EndX, armLink3EndY)
    gripperCenter := (armLink3EndX, armLink3EndY) }

/-- The geometry painted by `drawBase` (wmm.tsx lines 127–159): the base
rectangle `(x, y, w, h)` and the two wheel-circle centres. -/
structure BaseShape where
  rect : ℝ × ℝ × ℝ × ℝ
  wheel1Center : ℝ × ℝ
  wheel2Center : ℝ × ℝ

/-- Shallow embedding of `drawBase` (wmm.tsx lines 127–159). -/
def drawBase (baseX baseY baseWidth baseHeight wheelRadius canvasHeight groundHeight : ℝ) :
    BaseShape :=
  { rect := (baseX, baseY, baseWidth, baseHeight)
    wheel1Center := (baseX + wheelRadius, canvasHeight - groundHeight - wheelRadius)
    wheel2Center := (baseX + baseWidth - wheelRadius, canvasHeight - groundHeight - wheelRadius) }

/-- The clamped x computed by `handleCanvasClick` (wmm.tsx line 38):
`Math.min (Math.max (clickedX - baseWidth / 2) 0) (canvasWidth - baseWidth)`. -/
def handleCanvasClick (clickedX baseWidth canvasWidth : ℝ) : ℝ :=
  min (max (clickedX - baseWidth / 2) 0) (canvasWidth - baseWidth)

/-- The state update performed by `handleCanvasClick` (wmm.tsx line 39):
`setBasePosition (prev => ({ ...prev, x: newBaseX }))`. -/
def setBaseFromClick (prev : ℝ × ℝ) (clickedX baseWidth canvasWidth : ℝ) : ℝ × ℝ :=
  (handleCanvasClick clickedX baseWidth canvasWidth, prev.2)

/-- The sentinel-guarded initial centering (wmm.tsx lines 88–93):
if the pose is the `(0, 0)` sentinel it becomes
`((canvasWidth - baseWidth) / 2, canvasHeight - groundHeight - baseHeight - wheelRadius)`,
otherwise it is left unchanged. -/
def initBasePose (pose : ℝ × ℝ)
    (canvasWidth canvasHeight baseWidth baseHeight wheelRadius groundHeight : ℝ) : ℝ × ℝ :=
  if pose.1 = 0 ∧ pose.2 = 0 then
    ((canvasWidth - baseWidth) / 2, canvasHeight - groundHeight - baseHeight - wheelRadius)
  else pose

/-! ### Helper lemmas about the IK intermediates -/

lemma ik_b_pos (x y l2 l3 : ℝ) (h2 : l2 ≠ 0) : 0 < ik_b x y l2 l3 := by
  unfold ik_b
  refine Real.sqrt_pos.mpr ?_
  nlinarith [mul_self_nonneg (ik_a x y l3), mul_self_pos.mpr h2]

lemma ik_c_pos (x y l1 l2 l3 : ℝ) (h1 : l1 ≠ 0) : 0 < ik_c x y l1 l2 l3 := by
  unfold ik_c
  refine Real.sqrt_pos.mpr ?_
  nlinarith [mul_self_nonneg (ik_b x y l2 l3), mul_self_pos.mpr h1]

lemma ik_c_mul_self (x y l1 l2 l3 : ℝ) :
    ik_c x y l1 l2 l3 * ik_c x y l1 l2 l3 =
      l1 * l1 + ik_b x y l2 l3 * ik_b x y l2 l3 := by
  unfold ik_c
  exact Real.mul_self_sqrt
    (by nlinarith [mul_self_nonneg l1, mul_self_nonneg (ik_b x y l2 l3)])

lemma le_ik_c (x y l1 l2 l3 : ℝ) (h1 : 0 ≤ l1) : l1 ≤ ik_c x y l1 l2 l3 := by
  unfold ik_c
  calc l1 = Real.sqrt (l1 * l1) := (Real.sqrt_mul_self h1).symm
  _ ≤ Real.sqrt (l1 * l1 + ik_b x y l2 l3 * ik_b x y l2 l3) :=
      Real.sqrt_le_sqrt (by nlinarith [mul_self_nonneg (ik_b x y l2 l3)])

/-- Evaluation of `calculateInverseKinematics` when the geometry is
non-degenerate (`0 < l1`, `0 < b`): since `c` is defined as
`sqrt (l1² + b²)`, the first arccos argument is `0` and the second is
`l1 / c ∈ (0, 1]`, so both `acos` calls succeed. -/
lemma calcIK_eval (x y l1 l2 l3 : ℝ) (h1 : 0 < l1) (hb : 0 < ik_b x y l2 l3) :
    calculateInverseKinematics x y l1 l2 l3 =
      (atan2 y x,
       some (atan2 (ik_a x y l3) l2 + Real.arccos (l1 / ik_c x y l1 l2 l3)),
       some (Real.pi / 2)) := by
  have hc : 0 < ik_c x y l1 l2 l3 := ik_c_pos x y l1 l2 l3 h1.ne'
  have hcc := ik_c_mul_self x y l1 l2 l3
  have hnum1 : l1 * l1 + ik_b x y l2 l3 * ik_b x y l2 l3 -
      ik_c x y l1 l2 l3 * ik_c x y l1 l2 l3 = 0 := by rw [hcc]; ring
  have hnum2 : l1 * l1 + ik_c x y l1 l2 l3 * ik_c x y l1 l2 l3 -
      ik_b x y l2 l3 * ik_b x y l2 l3 = 2 * l1 * l1 := by rw [hcc]; ring
  have hden1 : (2 : ℝ) * l1 * ik_b x y l2 l3 ≠ 0 := by positivity
  have hden2 : (2 : ℝ) * l1 * ik_c x y l1 l2 l3 ≠ 0 := by positivity
  have hratio2 : 2 * l1 * l1 / (2 * l1 * ik_c x y l1 l2 l3) = l1 / ik_c x y l1 l2 l3 := by
    rw [mul_assoc, mul_assoc, mul_div_mul_left _ _ (two_ne_zero),
      mul_div_mul_left _ _ h1.ne']
  have hle : l1 / ik_c x y l1 l2 l3 ≤ 1 := (div_le_one hc).mpr (le_ik_c x y l1 l2 l3 h1.le)
  have hpos : 0 < l1 / ik_c x y l1 l2 l3 := div_pos h1 hc
  have e1 : divJs 0 (2 * l1 * ik_b x y l2 l3) = some 0 := by
    unfold divJs
    rw [if_neg hden1, zero_div]
  have e2 : divJs (2 * l1 * l1) (2 * l1 * ik_c x y l1 l2 l3) =
      some (l1 / ik_c x y l1 l2 l3) := by
    unfold divJs
    rw [if_neg hden2, hratio2]
  have e3 : acosJs 0 = some (Real.pi / 2) := by
    unfold acosJs
    rw [if_pos (by norm_num : (-1 : ℝ) ≤ 0 ∧ (0 : ℝ) ≤ 1), Real.arccos_zero]
  have e4 : acosJs (l1 / ik_c x y l1 l2 l3) =
      some (Real.arccos (l1 / ik_c x y l1 l2 l3)) := by
    unfold acosJs
    rw [if_pos (⟨by linarith, hle⟩ : (-1 : ℝ) ≤ l1 / ik_c x y l1 l2 l3 ∧
      l1 / ik_c x y l1 l2 l3 ≤ 1)]
  unfold calculateInverseKinematics
  dsimp only
  rw [hnum1, hnum2, e1, e2, Option.some_bind, Option.some_bind, e3, e4]
  rfl

lemma sin_atan2 (y x : ℝ) :
    Real.sin (atan2 y x) = y / Real.sqrt (x * x + y * y) := by
  unfold atan2
  rw [Complex.sin_arg]
  simp [Complex.abs_apply, Complex.normSq_mk]

lemma atan2_mem_Ico (y x : ℝ) (hy : 0 ≤ y) (hx : 0 < x) :
    atan2 y x ∈ Set.Ico 0 (Real.pi / 2) := by
  unfold atan2
  constructor
  · exact Complex.arg_nonneg_iff.mpr hy
  · exact lt_of_abs_lt (Complex.abs_arg_lt_pi_div_two_iff.mpr (Or.inl hx))

lemma atan2_zero_left (x : ℝ) (hx : 0 ≤ x) : atan2 0 x = 0 := by
  unfold atan2
  have h : (⟨x, 0⟩ : ℂ) = ((x : ℝ) : ℂ) := by
    apply Complex.ext <;> simp
  rw [h]
  exact Complex.arg_ofReal_of_nonneg hx

/-! ### Claim theorems -/

/-- Claim C1: the claim says that for `b = 0` or `l1 = 0` or an
inverse-cosine ratio outside `[-1, 1]`, `calculateInverseKinematics`
fails with a `ReachabilityError` and never returns a NaN/undefined angle.
The code has no error path at all: with `l1 = 0` (target `(100, 50)`,
lengths `[0, 80, 60]`) both acos arguments are `0/0`, so the solver
silently returns NaN (modelled `none`) for `theta2` and `theta3`. -/
theorem C1_degenerate_returns_nan :
    calculateInverseKinematics 100 50 0 80 60 = (atan2 50 100, none, none) := by
  unfold calculateInverseKinematics
  dsimp only
  norm_num [divJs]

/-- Claim C2: the claimed FK/IK round trip fails on the code.  For link
lengths `[60, 80, 60]` and target `(100, 50)` the solver does return
angles, but composing the `drawArm` forward chain from anchor `(0, 0)`
gives an end-effector y-coordinate below `-60`, which is farther than
`1e-6` from the target's `y = 50`. -/
theorem C2_roundtrip_fails : ∃ t2 t3,
    calculateInverseKinematics 100 50 60 80 60 =
      (atan2 50 100, some t2, some t3) ∧
    (drawArm 0 0 60 80 60 (atan2 50 100) t2 t3 0).armLink3End.2 < -60 ∧
    1 / 1000000 <
      |(drawArm 0 0 60 80 60 (atan2 50 100) t2 t3 0).armLink3End.2 - 50| := by
  have h1 : (0 : ℝ) < 60 := by norm_num
  have hb : 0 < ik_b 100 50 80 60 := ik_b_pos 100 50 80 60 (by norm_num)
  have hc : 0 < ik_c 100 50 60 80 60 := ik_c_pos 100 50 60 80 60 (by norm_num)
  have hcc := ik_c_mul_self 100 50 60 80 60
  have hc60 : 60 < ik_c 100 50 60 80 60 := by nlinarith [hcc, hb, hc]
  have hapos : 0 < ik_a 100 50 60 := by
    unfold ik_a ik_r
    have hlt : (60 : ℝ) < Real.sqrt (100 * 100 + 50 * 50) :=
      (Real.lt_sqrt (by norm_num)).mpr (by norm_num)
    linarith
  have hsin1 : 0 < Real.sin (atan2 50 100) := by
    rw [sin_atan2]
    exact div_pos (by norm_num) (Real.sqrt_pos.mpr (by norm_num))
  have halpha : atan2 (ik_a 100 50 60) 80 ∈ Set.Ico 0 (Real.pi / 2) :=
    atan2_mem_Ico (ik_a 100 50 60) 80 hapos.le (by norm_num)
  have hbeta1 : 0 < Real.arccos (60 / ik_c 100 50 60 80 60) :=
    Real.arccos_pos.mpr ((div_lt_one hc).mpr hc60)
  have hbeta2 : Real.arccos (60 / ik_c 100 50 60 80 60) ≤ Real.pi / 2 :=
    Real.arccos_le_pi_div_two.mpr (div_nonneg (by norm_num) hc.le)
  have hsin2 : 0 < Real.sin (atan2 (ik_a 100 50 60) 80 +
      Real.arccos (60 / ik_c 100 50 60 80 60)) := by
    refine Real.sin_pos_of_pos_of_lt_pi ?_ ?_
    · have := halpha.1
      linarith
    · have := halpha.2
      have hpi := Real.pi_pos
      linarith
  have hv : (drawArm 0 0 60 80 60 (atan2 50 100)
      (atan2 (ik_a 100 50 60) 80 + Real.arccos (60 / ik_c 100 50 60 80 60))
      (Real.pi / 2) 0).armLink3End.2 < -60 := by
    unfold drawArm
    dsimp only
    rw [Real.sin_pi_div_two]
    nlinarith [mul_pos (show (0 : ℝ) < 60 by norm_num) hsin1,
      mul_pos (show (0 : ℝ) < 80 by norm_num) hsin2]
  exact ⟨atan2 (ik_a 100 50 60) 80 + Real.arccos (60 / ik_c 100 50 60 80 60),
    Real.pi / 2, calcIK_eval 100 50 60 80 60 h1 hb, hv,
    by rw [abs_of_neg (by linarith)]; linarith⟩

/-- Claim C3: on its domain (nonzero inverse-cosine denominators and both
ratios inside `[-1, 1]`), `calculateInverseKinematics` returns exactly the
triple of the spec's §4.1 algorithm (`specInverseKinematics`). -/
theorem C3_matches_spec_algorithm (x y l1 l2 l3 : ℝ)
    (hd1 : 2 * l1 * ik_b x y l2 l3 ≠ 0)
    (hd2 : 2 * l1 * ik_c x y l1 l2 l3 ≠ 0)
    (hr1 : (l1 * l1 + ik_b x y l2 l3 * ik_b x y l2 l3 -
        ik_c x y l1 l2 l3 * ik_c x y l1 l2 l3) / (2 * l1 * ik_b x y l2 l3) ∈
        Set.Icc (-1 : ℝ) 1)
    (hr2 : (l1 * l1 + ik_c x y l1 l2 l3 * ik_c x y l1 l2 l3 -
        ik_b x y l2 l3 * ik_b x y l2 l3) / (2 * l1 * ik_c x y l1 l2 l3) ∈
        Set.Icc (-1 : ℝ) 1) :
    calculateInverseKinematics x y l1 l2 l3 =
      ((specInverseKinematics x y l1 l2 l3).1,
       some (specInverseKinematics x y l1 l2 l3).2.1,
       some (specInverseKinematics x y l1 l2 l3).2.2) := by
  have e1 : divJs (l1 * l1 + ik_b x y l2 l3 * ik_b x y l2 l3 -
      ik_c x y l1 l2 l3 * ik_c x y l1 l2 l3) (2 * l1 * ik_b x y l2 l3) =
      some ((l1 * l1 + ik_b x y l2 l3 * ik_b x y l2 l3 -
        ik_c x y l1 l2 l3 * ik_c x y l1 l2 l3) / (2 * l1 * ik_b x y l2 l3)) := by
    unfold divJs
    rw [if_neg hd1]
  have e2 : divJs (l1 * l1 + ik_c x y l1 l2 l3 * ik_c x y l1 l2 l3 -
      ik_b x y l2 l3 * ik_b x y l2 l3) (2 * l1 * ik_c x y l1 l2 l3) =
      some ((l1 * l1 + ik_c x y l1 l2 l3 * ik_c x y l1 l2 l3 -
        ik_b x y l2 l3 * ik_b x y l2 l3) / (2 * l1 * ik_c x y l1 l2 l3)) := by
    unfold divJs
    rw [if_neg hd2]
  have a1 : acosJs ((l1 * l1 + ik_b x y l2 l3 * ik_b x y l2 l3 -
      ik_c x y l1 l2 l3 * ik_c x y l1 l2 l3) / (2 * l1 * ik_b x y l2 l3)) =
      some (Real.arccos ((l1 * l1 + ik_b x y l2 l3 * ik_b x y l2 l3 -
        ik_c x y l1 l2 l3 * ik_c x y l1 l2 l3) / (2 * l1 * ik_b x y l2 l3))) := by
    unfold acosJs
    rw [if_pos ⟨hr1.1, hr1.2⟩]
  have a2 : acosJs ((l1 * l1 + ik_c x y l1 l2 l3 * ik_c x y l1 l2 l3 -
      ik_b x y l2 l3 * ik_b x y l2 l3) / (2 * l1 * ik_c x y l1 l2 l3)) =
      some (Real.arccos ((l1 * l1 + ik_c x y l1 l2 l3 * ik_c x y l1 l2 l3 -
        ik_b x y l2 l3 * ik_b x y l2 l3) / (2 * l1 * ik_c x y l1 l2 l3))) := by
    unfold acosJs
    rw [if_pos ⟨hr2.1, hr2.2⟩]
  unfold calculateInverseKinematics specInverseKinematics
  dsimp only
  rw [e1, e2, Option.some_bind, Option.some_bind, a1, a2]
  rfl

/-- Claim C4: at the reachability boundary the code does not return a
straight chain, and beyond it no error is raised.  At target `(180, 0)`
with lengths `[60, 80, 60]` (distance exactly `60+80+60`) the solver
returns `theta1 = 0` but `theta3 = π/2`, so link 1 and link 3 are
perpendicular (their cross product is nonzero), not collinear; and at
target `(300, 0)` (distance `300 > 200`) the solver still returns plain
angles instead of failing. -/
theorem C4_boundary_fails : ∃ t2,
    calculateInverseKinematics 180 0 60 80 60 = (0, some t2, some (Real.pi / 2)) ∧
    ((drawArm 0 0 60 80 60 0 t2 (Real.pi / 2) 0).armLink1End.1 -
        (drawArm 0 0 60 80 60 0 t2 (Real.pi / 2) 0).armLink1Start.1) *
      ((drawArm 0 0 60 80 60 0 t2 (Real.pi / 2) 0).armLink3End.2 -
        (drawArm 0 0 60 80 60 0 t2 (Real.pi / 2) 0).armLink2End.2) -
      ((drawArm 0 0 60 80 60 0 t2 (Real.pi / 2) 0).armLink1End.2 -
        (drawArm 0 0 60 80 60 0 t2 (Real.pi / 2) 0).armLink1Start.2) *
      ((drawArm 0 0 60 80 60 0 t2 (Real.pi / 2) 0).armLink3End.1 -
        (drawArm 0 0 60 80 60 0 t2 (Real.pi / 2) 0).armLink2End.1) ≠ 0 ∧
    (∃ u2 u3, calculateInverseKinematics 300 0 60 80 60 = (0, some u2, some u3)) := by
  have hb : 0 < ik_b 180 0 80 60 := ik_b_pos 180 0 80 60 (by norm_num)
  have heq := calcIK_eval 180 0 60 80 60 (by norm_num) hb
  rw [atan2_zero_left 180 (by norm_num)] at heq
  have hb' : 0 < ik_b 300 0 80 60 := ik_b_pos 300 0 80 60 (by norm_num)
  have heq' := calcIK_eval 300 0 60 80 60 (by norm_num) hb'
  rw [atan2_zero_left 300 (by norm_num)] at heq'
  refine ⟨_, heq, ?_, _, _, heq'⟩
  unfold drawArm
  dsimp only
  rw [Real.cos_zero, Real.sin_zero, Real.cos_pi_div_two, Real.sin_pi_div_two]
  intro hcontra
  norm_num at hcontra
  linarith

/-- Claim C5: `drawArm` anchors the shoulder at
`(base.x + width / 1.25, base.y)`, computes each link endpoint as the
previous point plus `(l·cos θ, −l·sin θ)`, chains the stages
(each end point is the next start point), and hands the link-3 endpoint
to the gripper as the end-effector position. -/
theorem C5_scene_composition (baseX baseY l1 l2 l3 t1 t2 t3 baseWidth : ℝ) :
    (drawArm baseX baseY l1 l2 l3 t1 t2 t3 baseWidth).armLink1Start =
        (baseX + baseWidth / 1.25, baseY) ∧
    (drawArm baseX baseY l1 l2 l3 t1 t2 t3 baseWidth).armLink1End =
        ((drawArm baseX baseY l1 l2 l3 t1 t2 t3 baseWidth).armLink1Start.1 +
            l1 * Real.cos t1,
         (drawArm baseX baseY l1 l2 l3 t1 t2 t3 baseWidth).armLink1Start.2 -
            l1 * Real.sin t1) ∧
    (drawArm baseX baseY l1 l2 l3 t1 t2 t3 baseWidth).armLink2End =
        ((drawArm baseX baseY l1 l2 l3 t1 t2 t3 baseWidth).armLink1End.1 +
            l2 * Real.cos t2,
         (drawArm baseX baseY l1 l2 l3 t1 t2 t3 baseWidth).armLink1End.2 -
            l2 * Real.sin t2) ∧
    (drawArm baseX baseY l1 l2 l3 t1 t2 t3 baseWidth).armLink3End =
        ((drawArm baseX baseY l1 l2 l3 t1 t2 t3 baseWidth).armLink2End.1 +
            l3 * Real.cos t3,
         (drawArm baseX baseY l1 l2 l3 t1 t2 t3 baseWidth).armLink2End.2 -
            l3 * Real.sin t3) ∧
    (drawArm baseX baseY l1 l2 l3 t1 t2 t3 baseWidth).gripperCenter =
        (drawArm baseX baseY l1 l2 l3 t1 t2 t3 baseWidth).armLink3End :=
  ⟨rfl, rfl, rfl, rfl, rfl⟩

/-- Claim C6: whenever the base fits in the canvas
(`baseWidth ≤ canvasWidth`), the x computed by `handleCanvasClick` lies in
`[0, canvasWidth − baseWidth]` for every click x-coordinate. -/
theorem C6_clamp_invariant (baseWidth canvasWidth : ℝ)
    (h : baseWidth ≤ canvasWidth) (clickedX : ℝ) :
    handleCanvasClick clickedX baseWidth canvasWidth ∈
      Set.Icc (0 : ℝ) (canvasWidth - baseWidth) := by
  unfold handleCanvasClick
  exact ⟨le_min (le_max_right _ _) (by linarith), min_le_right _ _⟩

theorem C6_clamp_invariant_witness :
    (100 : ℝ) ≤ 800 ∧
      handleCanvasClick (-5) 100 800 ∈ Set.Icc (0 : ℝ) (800 - 100) :=
  ⟨by norm_num, C6_clamp_invariant 100 800 (by norm_num) (-5)⟩

/-- Claim C7: the click handler sets `BasePose.x` to the clamp of
`clickedX − baseWidth/2` into `[0, canvasWidth − baseWidth]` and leaves
`BasePose.y` unchanged; with canvas width 800 and base width 100 a click
at `x = 10` yields `0` and a click at `x = 790` yields `700`. -/
theorem C7_click_update (prev : ℝ × ℝ) (clickedX baseWidth canvasWidth : ℝ) :
    setBaseFromClick prev clickedX baseWidth canvasWidth =
      (min (max (clickedX - baseWidth / 2) 0) (canvasWidth - baseWidth), prev.2) ∧
    (setBaseFromClick prev 10 100 800).1 = 0 ∧
    (setBaseFromClick prev 790 100 800).1 = 700 := by
  refine ⟨rfl, ?_, ?_⟩ <;>
  · unfold setBaseFromClick handleCanvasClick
    norm_num [max_def, min_def]

/-- Claim C8: starting from the `(0, 0)` sentinel with the component's
constants (canvas height 300, base 100×40, wheel radius 10, ground 40),
the first initialization centres the base at `((W − 100)/2, 210)`, and any
second initialization is a no-op regardless of the canvas width and height
passed the second time. -/
theorem C8_init_idempotent (W W2 H2 : ℝ) :
    initBasePose (0, 0) W 300 100 40 10 40 = ((W - 100) / 2, 210) ∧
    initBasePose (initBasePose (0, 0) W 300 100 40 10 40) W2 H2 100 40 10 40 =
      initBasePose (0, 0) W 300 100 40 10 40 := by
  have h1 : initBasePose (0, 0) W 300 100 40 10 40 = ((W - 100) / 2, 210) := by
    unfold initBasePose
    rw [if_pos ⟨rfl, rfl⟩]
    norm_num
  refine ⟨h1, ?_⟩
  rw [h1]
  unfold initBasePose
  rw [if_neg]
  intro h
  have h2 := h.2
  norm_num at h2

/-- Claim C9 counterexample: the claim places the wheel circles at the
base rectangle's edges (`x = base.x`), but for `base.x = 0`,
width `100`, wheel radius `10`, `drawBase` centres the first wheel at
`x = 10 ≠ 0`. -/
theorem C9_wheels_not_at_edges :
    (drawBase 0 0 100 40 10 300 40).wheel1Center.1 ≠ 0 := by
  unfold drawBase
  norm_num

/-- Claim C9 (amended): the wheel circles are centred one wheel radius
inside the base rectangle's left and right edges
(`x = base.x + r` and `x = base.x + width − r`), vertically at
`canvasHeight − groundHeight − wheelRadius`. -/
theorem C9_wheel_centers
    (baseX baseY baseWidth baseHeight wheelRadius canvasHeight groundHeight : ℝ) :
    (drawBase baseX baseY baseWidth baseHeight wheelRadius
        canvasHeight groundHeight).wheel1Center =
      (baseX + wheelRadius, canvasHeight - groundHeight - wheelRadius) ∧
    (drawBase baseX baseY baseWidth baseHeight wheelRadius
        canvasHeight groundHeight).wheel2Center =
      (baseX + baseWidth - wheelRadius, canvasHeight - groundHeight - wheelRadius) :=
  ⟨rfl, rfl⟩

/-- Claim C10: whenever `l1 > 0` and `b > 0`, the `theta3` returned by
`calculateInverseKinematics` is exactly `π/2`, independent of the target
and link lengths, because `c = sqrt (l1² + b²)` makes the first
inverse-cosine argument identically zero. -/
theorem C10_theta3_constant (x y l1 l2 l3 : ℝ) (h1 : 0 < l1)
    (hb : 0 < ik_b x y l2 l3) :
    (calculateInverseKinematics x y l1 l2 l3).2.2 = some (Real.pi / 2) := by
  rw [calcIK_eval x y l1 l2 l3 h1 hb]

theorem C10_theta3_constant_witness :
    (0 : ℝ) < 60 ∧ 0 < ik_b 180 0 80 60 ∧
      (calculateInverseKinematics 180 0 60 80 60).2.2 = some (Real.pi / 2) := by
  have hb : 0 < ik_b 180 0 80 60 := ik_b_pos 180 0 80 60 (by norm_num)
  exact ⟨by norm_num, hb, C10_theta3_constant 180 0 60 80 60 (by norm_num) hb⟩

theorem C3_matches_spec_algorithm_witness :
    (2 * 60 * ik_b 100 50 80 60 ≠ 0) ∧
    (2 * 60 * ik_c 100 50 60 80 60 ≠ 0) ∧
    ((60 * 60 + ik_b 100 50 80 60 * ik_b 100 50 80 60 -
        ik_c 100 50 60 80 60 * ik_c 100 50 60 80 60) /
        (2 * 60 * ik_b 100 50 80 60) ∈ Set.Icc (-1 : ℝ) 1) ∧
    ((60 * 60 + ik_c 100 50 60 80 60 * ik_c 100 50 60 80 60 -
        ik_b 100 50 80 60 * ik_b 100 50 80 60) /
        (2 * 60 * ik_c 100 50 60 80 60) ∈ Set.Icc (-1 : ℝ) 1) ∧
    calculateInverseKinematics 100 50 60 80 60 =
      ((specInverseKinematics 100 50 60 80 60).1,
       some (specInverseKinematics 100 50 60 80 60).2.1,
       some (specInverseKinematics 100 50 60 80 60).2.2) := by
  have hb : 0 < ik_b 100 50 80 60 := ik_b_pos 100 50 80 60 (by norm_num)
  have hc : 0 < ik_c 100 50 60 80 60 := ik_c_pos 100 50 60 80 60 (by norm_num)
  have hcc := ik_c_mul_self 100 50 60 80 60
  have hle := le_ik_c 100 50 60 80 60 (by norm_num)
  have hd1 : (2 : ℝ) * 60 * ik_b 100 50 80 60 ≠ 0 := by
    have h : (0 : ℝ) < 2 * 60 * ik_b 100 50 80 60 := by nlinarith [hb]
    exact h.ne'
  have hd2 : (2 : ℝ) * 60 * ik_c 100 50 60 80 60 ≠ 0 := by
    have h : (0 : ℝ) < 2 * 60 * ik_c 100 50 60 80 60 := by nlinarith [hc]
    exact h.ne'
  have hz1 : (60 : ℝ) * 60 + ik_b 100 50 80 60 * ik_b 100 50 80 60 -
      ik_c 100 50 60 80 60 * ik_c 100 50 60 80 60 = 0 := by
    rw [hcc]; ring
  have hz2 : (60 : ℝ) * 60 + ik_c 100 50 60 80 60 * ik_c 100 50 60 80 60 -
      ik_b 100 50 80 60 * ik_b 100 50 80 60 = 2 * 60 * 60 := by
    rw [hcc]; ring
  have hr1 : ((60 : ℝ) * 60 + ik_b 100 50 80 60 * ik_b 100 50 80 60 -
      ik_c 100 50 60 80 60 * ik_c 100 50 60 80 60) /
      (2 * 60 * ik_b 100 50 80 60) ∈ Set.Icc (-1 : ℝ) 1 := by
    rw [hz1, zero_div]
    exact ⟨by norm_num, by norm_num⟩
  have hr2 : ((60 : ℝ) * 60 + ik_c 100 50 60 80 60 * ik_c 100 50 60 80 60 -
      ik_b 100 50 80 60 * ik_b 100 50 80 60) /
      (2 * 60 * ik_c 100 50 60 80 60) ∈ Set.Icc (-1 : ℝ) 1 := by
    rw [hz2]
    constructor
    · have h : (0 : ℝ) ≤ 2 * 60 * 60 / (2 * 60 * ik_c 100 50 60 80 60) :=
        div_nonneg (by norm_num) (by nlinarith [hc])
      linarith
    · rw [div_le_one (by nlinarith [hc])]
      nlinarith [hle]
  exact ⟨hd1, hd2, hr1, hr2,
    C3_matches_spec_algorithm 100 50 60 80 60 hd1 hd2 hr1 hr2⟩

end
